import Mathlib

/-!
Shallow embedding of the prun process supervisor (github.com/BRAVO68WEB/prun)
for checking its natural-language specification.

The Go sources embedded here:
  internal/config/config.go   : Config, TaskDef, Load validation, GetTasksToRun
  internal/runner/runner.go   : Runner.Run fan-out and error collection,
                                runTask spawn/wait logic, streamOutput splitter
  internal/runner/watcher.go  : addWatchRecursive, watchLoop debounce,
                                triggerRestarts mailbox delivery
  cmd/prun/main.go            : command-line flag surface

Machine integers do not overflow in any modelled path, so Nat is used
throughout.  Byte streams are lists of Nat (byte values); the newline byte
is 10.
-/

namespace Prun

/-- A single-quote character (byte 39), used to reproduce the Go error
format strings verbatim. -/
def sq : String := String.mk [Char.ofNat 39]

/-- The Go `interface\x7b\x7d` value decoded from the manifest field
`restart`, documented in config.go as bool or string. -/
inductive RestartVal where
  | ofBool (b : Bool)
  | ofString (s : String)
deriving DecidableEq, Repr

/-- TaskDef from internal/config/config.go: `cmd`, `path`, `env`,
`restart` (bool or string), `shell` (optional bool).  The `watch` bool
(default false) is the field read as `taskDef.Watch` by Watcher.Start,
triggerRestarts and main; the config.go copy in the tree predates it, so
its declaration is taken from those readers and the documented default. -/
structure TaskDef where
  cmd : String
  path : String := ""
  env : List (String × String) := []
  restart : Option RestartVal := none
  shell : Option Bool := none
  watch : Bool := false
deriving DecidableEq, Repr

/-- Config from internal/config/config.go: the ordered `tasks` list and the
name → TaskDef mapping (a Go map, embedded as an association list with
unique keys). -/
structure Config where
  tasks : List String
  taskDefs : List (String × TaskDef)
deriving DecidableEq, Repr

/-- Go map lookup `cfg.TaskDefs[name]` presence check: first association
with the given key. -/
def Config.findTaskDef (c : Config) (name : String) : Option TaskDef :=
  (c.taskDefs.find? (fun p => p.1 == name)).map (fun p => p.2)

/-- The validation half of config.Load (config.go lines 39-53), applied
after TOML decoding: every name in `tasks` must be defined, and every
definition must have a non-empty `cmd`. -/
def loadValidate (cfg : Config) : Except String Config :=
  match cfg.tasks.find? (fun t => (cfg.findTaskDef t).isNone) with
  | some t => .error ("task " ++ sq ++ t ++ sq ++ " listed but not defined")
  | none =>
    match cfg.taskDefs.find? (fun p => p.2.cmd == "") with
    | some p =>
      .error ("task " ++ sq ++ p.1 ++ sq ++ " missing required " ++ sq ++
        "cmd" ++ sq ++ " field")
    | none => .ok cfg

/-- Config.GetTasksToRun (config.go lines 57-70): empty argument list means
the full manifest order; otherwise every argument must name a defined task
and the argument list is returned as given. -/
def Config.getTasksToRun (c : Config) (args : List String) :
    Except String (List String) :=
  if args.isEmpty then .ok c.tasks
  else
    match args.find? (fun a => (c.findTaskDef a).isNone) with
    | some bad =>
      .error ("task " ++ sq ++ bad ++ sq ++ " not defined in config")
    | none => .ok args

/-! ### Task executor (runner.go `runTask`) -/

/-- `useShell` resolution in runTask lines 82-86: default true, overridden
by the `shell` field when present. -/
def useShellOf (d : TaskDef) : Bool := d.shell.getD true

/-- The argv handed to exec by runTask lines 88-94.  The source builds
`/bin/sh -c cmd` in the shell branch, and — its comment saying the
non-shell parse is simplified for now — the identical `/bin/sh -c cmd` in
the non-shell branch.  The branch structure is kept as written. -/
def buildArgv (d : TaskDef) : List String :=
  if useShellOf d then ["/bin/sh", "-c", d.cmd]
  else ["/bin/sh", "-c", d.cmd]

/-- Split a character list at a separator character, dropping empty
pieces; `cur` is the current piece accumulated in reverse. -/
def splitChAux (sep : Char) (cur : List Char) : List Char → List (List Char)
  | [] => if cur.isEmpty then [] else [cur.reverse]
  | c :: rest =>
    if c = sep then
      if cur.isEmpty then splitChAux sep [] rest
      else cur.reverse :: splitChAux sep [] rest
    else splitChAux sep (c :: cur) rest

/-- Modelled from the spec: tokenisation of the command string by
whitespace (split on space characters, empty tokens removed), the
behaviour §4.1 prescribes for `useShell = false`.  No code under src
implements this; the definition follows the words of the spec and exists
only to be compared with `buildArgv`. -/
def whitespaceTokens (s : String) : List String :=
  (splitChAux ' ' [] s.data).map (fun cs => String.mk cs)

/-- Modelled from the spec: the spawn policy of §4.1 — shell branch as in
the code, non-shell branch exec of the whitespace tokens directly. -/
def specArgv (d : TaskDef) : List String :=
  if useShellOf d then ["/bin/sh", "-c", d.cmd]
  else whitespaceTokens d.cmd

/-- The wait handling of runTask lines 144-153: `cmd.Wait` yields an error
exactly for a non-zero exit code; when the context has been cancelled the
error is swallowed (return nil), otherwise it is returned as the failure. -/
def waitResult (exitCode : Nat) (ctxCancelled : Bool) : Option String :=
  if exitCode = 0 then none
  else if ctxCancelled then none
  else some ("exit status " ++ toString exitCode)

/-- The run conditions of one executor instance: the exit code of the
child and whether the cancellation scope had fired by reap time. -/
structure RunEnv where
  exitCode : Nat
  ctxCancelled : Bool
deriving DecidableEq, Repr

/-- One-run semantics of runTask for a task definition: the argv spawned
and the error returned after the wait.  runTask contains no retry or
restart loop, so this is the whole per-call behaviour. -/
def runTaskSem (d : TaskDef) (env : RunEnv) : List String × Option String :=
  (buildArgv d, waitResult env.exitCode env.ctxCancelled)

/-! ### Supervisor (runner.go `Runner.Run`) -/

/-- One executor completion: the task name and the error (`none` for
success) its runTask call returned. -/
structure Completion where
  task : String
  err : Option String
deriving DecidableEq, Repr

/-- The error wrapping of Runner.Run line 50: `task <sq>name<sq>: err`. -/
def fmtTaskErr (name msg : String) : String :=
  "task " ++ sq ++ name ++ sq ++ ": " ++ msg

/-- The contents of errChan after all executors joined (Runner.Run lines
44-58), given the executor completions in completion order: each failing
executor sends its wrapped error before calling cancel. -/
def errQueue (trace : List Completion) : List String :=
  trace.filterMap (fun c => c.err.map (fun e => fmtTaskErr c.task e))

/-- The value Runner.Run returns (lines 60-71): the head of errChan, read
only after wg.Wait, i.e. after every executor has exited. -/
def runResult (trace : List Completion) : Option String :=
  (errQueue trace).head?

/-- Whether `cancel()` was invoked by a failing executor (line 51): true
exactly when some completion carried an error. -/
def cancelFired (trace : List Completion) : Bool :=
  !(errQueue trace).isEmpty

/-- The goroutines Runner.Run launches (lines 45-53): one per element of
the task list, in list order, each carrying that element as its task
name; the index distinguishes instances of a repeated name. -/
def launchedExecutors (tasks : List String) : List (Nat × String) :=
  tasks.enum

/-! ### Watch layer (watcher.go) -/

/-- A filesystem subtree, as observed by filepath.Walk: directories with
named children, and plain files. -/
inductive FsTree where
  | dir (name : String) (children : List FsTree)
  | file (name : String)
deriving Repr

/-- The name component of a node. -/
def FsTree.nodeName : FsTree → String
  | .dir n _ => n
  | .file n => n

/-- Go filepath.Base on the paths the walk produces: empty string gives
".", a path of only slashes gives "/", otherwise the last non-empty
slash-separated component. -/
def filepathBase (p : String) : String :=
  if p.isEmpty then "."
  else
    match (splitChAux '/' [] p.data).getLast? with
    | some b => String.mk b
    | none => "/"

/-- The skip test of addWatchRecursive lines 151-155 on the base name of a
directory: first byte a dot, or one of the four named build and dependency
directories.  (filepath.Base never returns an empty string, so the empty
case is unreachable.) -/
def skipDir (base : String) : Bool :=
  (match base.data with
   | [] => false
   | c :: _ => c == '.')
  || base == "node_modules" || base == "vendor" || base == "dist"
  || base == "build"

mutual

/-- filepath.Walk as used by addWatchRecursive (watcher.go lines 144-161):
visit the directory at `path`; if the skip test on filepath.Base(path)
fires, SkipDir prunes the whole subtree — at the root this ends the walk
with nothing registered; otherwise the directory is added to the fsnotify
watcher and the children are walked under `path`.  Files are never added. -/
def walkTree (path : String) : FsTree → List String
  | .file _ => []
  | .dir _ cs =>
    if skipDir (filepathBase path) then []
    else path :: walkChildren path cs

/-- Walk the children of a directory, extending the path with each child
name. -/
def walkChildren (path : String) : List FsTree → List String
  | [] => []
  | c :: cs => walkTree (path ++ "/" ++ c.nodeName) c ++ walkChildren path cs

end

/-- Watcher.Start lines 110-113: the directory watched for a task is its
`path`, or "." (the supervisor working directory) when unset. -/
def watchDirOf (d : TaskDef) : String := if d.path == "" then "." else d.path

/-- The directories addWatchRecursive registers for one watched task,
given the filesystem subtree rooted at its watch directory. -/
def registeredDirs (d : TaskDef) (tree : FsTree) : List String :=
  walkTree (watchDirOf d) tree

/-- The debounce window of watchLoop (watcher.go line 167), in
milliseconds. -/
def debounceMs : Nat := 500

/-- watchLoop lines 164-201: every significant event stops the pending
debounce timer and schedules a new fire `debounceMs` later, so a scheduled
fire at t + 500 happens exactly when no further significant event arrives
before that time.  Given the significant-event timestamps in arrival
order, this returns the times at which triggerRestarts runs. -/
def timerFires : List Nat → List Nat
  | [] => []
  | [t] => [t + debounceMs]
  | t :: u :: rest =>
    if u < t + debounceMs then timerFires (u :: rest)
    else (t + debounceMs) :: timerFires (u :: rest)

/-- The restart mailbox of one task: a Go channel of capacity one, whose
state is the number of buffered pulses.  A non-blocking send fills an
empty mailbox and leaves a non-empty one unchanged (the select default
branch of triggerRestarts). -/
def trySend (slot : Nat) : Nat := if slot = 0 then 1 else slot

/-- triggerRestarts (watcher.go lines 204-221): one non-blocking pulse
send to the mailbox of every watched task — globalWatch or the per-task
flag — leaving non-watched mailboxes untouched. -/
def triggerRestarts (globalWatch : Bool) (boxes : List (TaskDef × Nat)) :
    List (TaskDef × Nat) :=
  boxes.map (fun p =>
    if globalWatch || p.1.watch then (p.1, trySend p.2) else p)

/-! ### Line splitter (runner.go `streamOutput`) -/

/-- bufio.MaxScanTokenSize, the buffer bound of the default Scanner used
by streamOutput: 64 KiB. -/
def maxScanTokenSize : Nat := 65536

/-- The bufio.Scanner line loop of streamOutput (runner.go lines 156-163)
over the byte stream of one pipe; `cur` is the buffered partial line in
reverse.  A token is emitted at each newline byte (10); at EOF a non-empty
trailing partial line is emitted; a line of maxScanTokenSize or more bytes
makes Scan fail with ErrTooLong, ending the loop and dropping both the
buffered bytes and the rest of the stream.  (Go raises ErrTooLong as the
buffer fills; the emitted tokens are the same as with the check at the cut
points, as here, for a pipe that delivers EOF on a separate read.) -/
def scanLinesAux (cur : List Nat) : List Nat → List (List Nat)
  | [] =>
    if cur.isEmpty then []
    else if maxScanTokenSize ≤ cur.length then []
    else [cur.reverse]
  | b :: rest =>
    if b = 10 then
      if maxScanTokenSize ≤ cur.length then []
      else cur.reverse :: scanLinesAux [] rest
    else scanLinesAux (b :: cur) rest

/-- The lines streamOutput emits for one stream. -/
def scanLines (s : List Nat) : List (List Nat) := scanLinesAux [] s

/-! ### Command-line front-end (cmd/prun/main.go) -/

/-- The flag variables of main (the copy wired to the watcher and the TUI,
main.go lines 62-82), with their registered defaults. -/
structure Flags where
  configPath : String := "prun.toml"
  verbose : Bool := false
  list : Bool := false
  help : Bool := false
  interactive : Bool := false
  watch : Bool := false
deriving DecidableEq, Repr

/-- Assign a boolean flag by its registered name; `none` for a name no
flag.Bool call registered. -/
def setBoolFlag (fs : Flags) (name : String) (v : Bool) : Option Flags :=
  if name == "v" || name == "verbose" then some { fs with verbose := v }
  else if name == "l" || name == "list" then some { fs with list := v }
  else if name == "h" || name == "help" then some { fs with help := v }
  else if name == "i" || name == "interactive" then
    some { fs with interactive := v }
  else if name == "w" || name == "watch" then some { fs with watch := v }
  else none

/-- The two registered string-flag names (flag.String "c" and "config"). -/
def isConfigFlag (name : String) : Bool := name == "c" || name == "config"

/-- Split a flag body at the first `=`: the name, and the inline value if
one is present. -/
def splitEqAux (acc : List Char) :
    List Char → List Char × Option (List Char)
  | [] => (acc.reverse, none)
  | c :: rest =>
    if c = '=' then (acc.reverse, some rest) else splitEqAux (c :: acc) rest

/-- strconv.ParseBool on the values the manifest of flags accepts,
restricted to the spellings exercised here. -/
def parseBoolVal (s : String) : Option Bool :=
  if s == "true" || s == "1" then some true
  else if s == "false" || s == "0" then some false
  else none

/-- What one flag argument (dashes stripped) does to the flag set: an
error, an immediate update, or — for the config string flag without an
inline value — a request for the following argument. -/
inductive FlagAct where
  | unknown (nm : String)
  | badBool (nm : String)
  | setTo (fs : Flags)
  | needArg (nm : String)
deriving DecidableEq, Repr

/-- Resolve one flag body: split at `=`, then a defined boolean flag takes
an optional inline value, and the config string flag takes an inline value
or asks for the next argument; any other name is undefined. -/
def classifyFlag (fs : Flags) (body : List Char) : FlagAct :=
  let nmv := splitEqAux [] body
  let nm := String.mk nmv.1
  if isConfigFlag nm then
    match nmv.2 with
    | some v => .setTo { fs with configPath := String.mk v }
    | none => .needArg nm
  else
    match nmv.2 with
    | some v =>
      match parseBoolVal (String.mk v) with
      | some b =>
        match setBoolFlag fs nm b with
        | some fs2 => .setTo fs2
        | none => .unknown nm
      | none => .badBool nm
    | none =>
      match setBoolFlag fs nm true with
      | some fs2 => .setTo fs2
      | none => .unknown nm

/-- The Go flag package loop over the argument list for the flag set main
registers: a non-flag argument (or bare "-") stops parsing and the rest
are the positional arguments; "--" is consumed and stops parsing; a
defined boolean flag takes an optional inline =value; the config string
flag takes an inline =value or the following argument; an unknown name is
an error.  The one- and two-dash arms are identical, as in Go. -/
def parseFlagsAux (fs : Flags) : List String → Except String (Flags × List String)
  | [] => .ok (fs, [])
  | a :: rest =>
    match a.data with
    | '-' :: [] => .ok (fs, a :: rest)
    | '-' :: '-' :: [] => .ok (fs, rest)
    | '-' :: '-' :: c :: cs =>
      if c == '-' || c == '=' then .error ("bad flag syntax: " ++ a)
      else
        match classifyFlag fs (c :: cs) with
        | .unknown nm => .error ("flag provided but not defined: -" ++ nm)
        | .badBool nm => .error ("invalid boolean value for -" ++ nm)
        | .setTo fs2 => parseFlagsAux fs2 rest
        | .needArg nm =>
          match rest with
          | [] => .error ("flag needs an argument: -" ++ nm)
          | v :: rest2 => parseFlagsAux { fs with configPath := v } rest2
    | '-' :: c :: cs =>
      if c == '-' || c == '=' then .error ("bad flag syntax: " ++ a)
      else
        match classifyFlag fs (c :: cs) with
        | .unknown nm => .error ("flag provided but not defined: -" ++ nm)
        | .badBool nm => .error ("invalid boolean value for -" ++ nm)
        | .setTo fs2 => parseFlagsAux fs2 rest
        | .needArg nm =>
          match rest with
          | [] => .error ("flag needs an argument: -" ++ nm)
          | v :: rest2 => parseFlagsAux { fs with configPath := v } rest2
    | _ => .ok (fs, a :: rest)

/-- flag.Parse as called by main: start from the registered defaults. -/
def parseFlags (args : List String) : Except String (Flags × List String) :=
  parseFlagsAux {} args

/-! ### Concrete fixtures used by witnesses and counterexamples -/

/-- A two-task manifest in the shape of examples/simple.toml. -/
def cfgAB : Config :=
  { tasks := ["a", "b"]
    taskDefs := [("a", { cmd := "echo a" }), ("b", { cmd := "echo b" })] }

/-- A project subtree with source, dependency and VCS directories. -/
def projTree : FsTree :=
  .dir "proj"
    [.dir "src" [.file "main.go", .dir "sub" []],
     .dir "node_modules" [.dir "x" []],
     .dir ".git" [.file "HEAD"],
     .file "go.mod"]

/-- Replace the restart value of the named task definition, leaving every
other field and entry unchanged: two manifests differing only in a
`restart` entry. -/
def setRestart (c : Config) (name : String) (r : Option RestartVal) :
    Config :=
  { c with taskDefs :=
      c.taskDefs.map (fun p =>
        if p.1 == name then (p.1, { p.2 with restart := r }) else p) }

/-- A task definition whose manifest sets `restart = true`. -/
def dRestart : TaskDef := { cmd := "sleep 1", restart := some (.ofBool true) }

/-- The same task definition without the restart entry. -/
def dPlain : TaskDef := { cmd := "sleep 1" }

/-- A one-task manifest whose task sets `restart = true`. -/
def cfgRestart : Config :=
  { tasks := ["app"], taskDefs := [("app", dRestart)] }

end Prun

section ScratchTests
open Prun

example : cfgAB.getTasksToRun [] = .ok ["a", "b"] := rfl
example : cfgAB.getTasksToRun ["b", "a", "b"] = .ok ["b", "a", "b"] := rfl
example : (cfgAB.getTasksToRun ["a", "zzz"]).isOk = false := by decide
example : (loadValidate cfgAB).isOk = true := by decide
example : (loadValidate { cfgAB with tasks := ["c"] }).isOk = false := by decide

example : buildArgv { cmd := "echo a b", shell := some false } =
    ["/bin/sh", "-c", "echo a b"] := rfl
example : specArgv { cmd := "echo a b", shell := some false } =
    ["echo", "a", "b"] := rfl
example : waitResult 2 false = some "exit status 2" := rfl
example : waitResult 2 true = none := rfl
example : runResult [⟨"a", none⟩, ⟨"b", some "exit status 1"⟩,
    ⟨"c", some "boom"⟩] = some (fmtTaskErr "b" "exit status 1") := rfl
example : cancelFired [⟨"a", none⟩] = false := rfl
example : launchedExecutors ["x", "x"] = [(0, "x"), (1, "x")] := rfl

example : filepathBase "." = "." := rfl
example : filepathBase "a/b" = "b" := rfl
example : filepathBase "proj" = "proj" := rfl
example : skipDir "." = true := rfl
example : skipDir "node_modules" = true := rfl
example : skipDir "src" = false := rfl
example : walkTree "." projTree = [] := rfl
example : walkTree "proj" projTree = ["proj", "proj/src", "proj/src/sub"] := rfl
example : registeredDirs { cmd := "x" } projTree = [] := rfl
example : registeredDirs { cmd := "x", path := "proj" } projTree =
    ["proj", "proj/src", "proj/src/sub"] := rfl

example : timerFires [0, 100, 300] = [800] := rfl
example : timerFires [0, 600] = [500, 1100] := rfl
example : trySend 0 = 1 := rfl
example : trySend 1 = 1 := rfl
example : triggerRestarts false
    [({ cmd := "a", watch := true }, 0), ({ cmd := "b" }, 0)] =
    [({ cmd := "a", watch := true }, 1), ({ cmd := "b" }, 0)] := rfl

example : scanLines [97, 98, 10, 99, 10] = [[97, 98], [99]] := rfl
example : scanLines [97, 98, 10, 99] = [[97, 98], [99]] := rfl
example : scanLines [10, 10] = [[], []] := rfl
example : scanLines [] = [] := rfl

example : parseFlags ["-w"] = .ok ({ watch := true }, []) := rfl
example : parseFlags ["--watch"] = .ok ({ watch := true }, []) := rfl
example : parseFlags ["-i", "app"] =
    .ok ({ interactive := true }, ["app"]) := rfl
example : parseFlags ["-c", "dev.toml"] =
    .ok ({ configPath := "dev.toml" }, []) := rfl
example : parseFlags ["--config=dev.toml", "a", "b"] =
    .ok ({ configPath := "dev.toml" }, ["a", "b"]) := rfl
example : parseFlags ["-x"] = .error "flag provided but not defined: -x" := rfl
example : parseFlags [] = .ok ({}, []) := rfl
example : ({} : Flags).configPath = "prun.toml" := rfl

end ScratchTests

namespace Prun

/-- Helper: a non-empty argument list in which every name is defined is
returned verbatim by GetTasksToRun. -/
theorem getTasksToRun_ok_of_defined (c : Config) (args : List String)
    (hne : args ≠ []) (hdef : ∀ a ∈ args, (c.findTaskDef a).isSome) :
    c.getTasksToRun args = .ok args := by
  have hne2 : args.isEmpty = false := by
    cases args with
    | nil => exact absurd rfl hne
    | cons a l => rfl
  have hfind : args.find? (fun a => (c.findTaskDef a).isNone) = none := by
    rw [List.find?_eq_none]
    intro a ha
    have h1 := hdef a ha
    cases h2 : c.findTaskDef a with
    | none => rw [h2] at h1; exact absurd h1 (by simp)
    | some d => simp
  simp [Config.getTasksToRun, hne2, hfind]

/-- Helper: the indexed goroutine list keeps one entry per occurrence of a
name in the task list. -/
theorem enumFrom_filter_snd_count (name : String) (l : List String) :
    ∀ k, ((List.enumFrom k l).filter (fun p => p.2 == name)).length =
      l.count name := by
  induction l with
  | nil => intro k; rfl
  | cons a t ih =>
    intro k
    by_cases h : a == name
    · simp [List.enumFrom, List.filter, h, ih, List.count_cons]
    · simp [List.enumFrom, List.filter, h, ih, List.count_cons]

/-- Helper: errChan is empty exactly when every executor succeeded. -/
theorem errQueue_eq_nil_iff (trace : List Completion) :
    errQueue trace = [] ↔ ∀ c ∈ trace, c.err = none := by
  simp [errQueue, List.filterMap_eq_nil_iff, Option.map_eq_none']

/-- Helper: the head of errChan is the wrapped error of the first failing
completion. -/
theorem runResult_first_failure (trace : List Completion) :
    ∀ c e, trace.find? (fun x => x.err.isSome) = some c →
      c.err = some e → runResult trace = some (fmtTaskErr c.task e) := by
  induction trace with
  | nil => intro c e h; simp [List.find?] at h
  | cons x tr ih =>
    intro c e hfind herr
    cases hx : x.err with
    | some v =>
      simp only [List.find?_cons, hx, Option.isSome_some, if_true] at hfind
      cases hfind
      rw [hx] at herr
      cases herr
      simp [runResult, errQueue, List.filterMap_cons, hx]
    | none =>
      simp only [List.find?_cons, hx, Option.isSome_none,
        Bool.false_eq_true, if_false] at hfind
      have htail := ih c e hfind herr
      simpa [runResult, errQueue, List.filterMap_cons, hx] using htail

/-- C2: Runner.Run fail-fast — given the executor completions in
completion order (the function consumes the whole trace, mirroring the
wg.Wait barrier before any result is read): success is returned exactly
when no executor failed, cancel fires exactly when some executor failed,
and the returned failure is the first one in completion order. -/
theorem runnerRun_failFast_spec (trace : List Completion) :
    (runResult trace = none ↔ ∀ c ∈ trace, c.err = none)
    ∧ (cancelFired trace = true ↔ ∃ c ∈ trace, c.err ≠ none)
    ∧ (∀ c e, trace.find? (fun x => x.err.isSome) = some c →
        c.err = some e → runResult trace = some (fmtTaskErr c.task e)) := by
  refine ⟨?_, ?_, runResult_first_failure trace⟩
  · rw [runResult, List.head?_eq_none_iff]
    exact errQueue_eq_nil_iff trace
  · rw [cancelFired]
    constructor
    · intro h
      by_contra hno
      push_neg at hno
      have : errQueue trace = [] := by
        rw [errQueue_eq_nil_iff]
        intro c hc
        exact hno c hc
      simp [this] at h
    · intro ⟨c, hc, hne⟩
      have : errQueue trace ≠ [] := by
        rw [Ne, errQueue_eq_nil_iff]
        intro hall
        exact hne (hall c hc)
      simpa [List.isEmpty_iff] using this

/-- Witness for C2: the first failure in completion order is returned. -/
theorem runnerRun_failFast_spec_witness :
    runResult [⟨"a", none⟩, ⟨"b", some "exit status 1"⟩,
      ⟨"c", some "boom"⟩] = some (fmtTaskErr "b" "exit status 1") :=
  (runnerRun_failFast_spec _).2.2 ⟨"b", some "exit status 1"⟩
    "exit status 1" rfl rfl

/-- Helper: mapping a restart update over the definitions changes no key
and no cmd, so both Load validation lookups are unaffected. -/
theorem find?_setRestart_key (n t : String) (r : Option RestartVal)
    (l : List (String × TaskDef)) :
    ((l.map (fun p =>
        if p.1 == n then (p.1, { p.2 with restart := r }) else p)).find?
          (fun p => p.1 == t)).isNone
      = (l.find? (fun p => p.1 == t)).isNone := by
  induction l with
  | nil => rfl
  | cons p rest ih =>
    simp only [List.map_cons, List.find?_cons]
    have hq : ((if (p.1 == n) = true
        then (p.1, { p.2 with restart := r }) else p).1 == t)
        = (p.1 == t) := by
      by_cases hn : (p.1 == n) = true
      · rw [if_pos hn]
      · rw [if_neg hn]
    rw [hq]
    cases ht : (p.1 == t) with
    | true => simp only [if_true]; rfl
    | false =>
      simp only [Bool.false_eq_true, if_false]
      exact ih

/-- Helper: the empty-cmd validation lookup is unaffected by restart
updates. -/
theorem find?_setRestart_cmd (n : String) (r : Option RestartVal)
    (l : List (String × TaskDef)) :
    ((l.map (fun p =>
        if p.1 == n then (p.1, { p.2 with restart := r }) else p)).find?
          (fun p => p.2.cmd == "")).isNone
      = (l.find? (fun p => p.2.cmd == "")).isNone := by
  induction l with
  | nil => rfl
  | cons p rest ih =>
    simp only [List.map_cons, List.find?_cons]
    have hq : ((if (p.1 == n) = true
        then (p.1, { p.2 with restart := r }) else p).2.cmd == "")
        = (p.2.cmd == "") := by
      by_cases hn : (p.1 == n) = true
      · rw [if_pos hn]
      · rw [if_neg hn]
    rw [hq]
    cases hc : (p.2.cmd == "") with
    | true => simp only [if_true]; rfl
    | false =>
      simp only [Bool.false_eq_true, if_false]
      exact ih

/-- Helper: mapping over an option does not change presence. -/
theorem isNone_map {α β : Type} (f : α → β) (o : Option α) :
    (o.map f).isNone = o.isNone := by
  cases o <;> rfl

/-- Helper: task lookups see the same presence before and after a restart
update. -/
theorem findTaskDef_setRestart_isNone (c : Config) (n : String)
    (r : Option RestartVal) (t : String) :
    ((setRestart c n r).findTaskDef t).isNone
      = (c.findTaskDef t).isNone := by
  simp only [Config.findTaskDef, isNone_map]
  exact find?_setRestart_key n t r c.taskDefs

/-- C9 amended form, part of the general statement: validation accepts a
manifest exactly as it would with the restart entry of any task changed
or removed, the per-call executor semantics are invariant under the
restart value, and so is the watched-task test that alone decides
restarts.  Together: the restart field is decoded and then ignored. -/
theorem restart_field_invariance :
    (∀ (d : TaskDef) (r : Option RestartVal) (env : RunEnv),
      runTaskSem { d with restart := r } env = runTaskSem d env)
    ∧ (∀ (c : Config) (n : String) (r : Option RestartVal),
      (loadValidate (setRestart c n r)).isOk = (loadValidate c).isOk)
    ∧ (∀ (gw : Bool) (d : TaskDef) (r : Option RestartVal),
      (gw || ({ d with restart := r } : TaskDef).watch) = (gw || d.watch)) := by
  refine ⟨fun d r env => rfl, ?_, fun gw d r => rfl⟩
  intro c n r
  have h1 : ((setRestart c n r).tasks.find?
      (fun t => ((setRestart c n r).findTaskDef t).isNone))
      = (c.tasks.find? (fun t => (c.findTaskDef t).isNone)) := by
    have htasks : (setRestart c n r).tasks = c.tasks := rfl
    rw [htasks]
    congr 1
    funext t
    exact findTaskDef_setRestart_isNone c n r t
  unfold loadValidate
  rw [h1]
  cases hfa : c.tasks.find? (fun t => (c.findTaskDef t).isNone) with
  | some t => rfl
  | none =>
    have h2 := find?_setRestart_cmd n r c.taskDefs
    cases hfb : c.taskDefs.find? (fun p => p.2.cmd == "") with
    | some p =>
      rw [hfb] at h2
      simp only [Option.isNone] at h2
      cases hq : (setRestart c n r).taskDefs.find? (fun p => p.2.cmd == "") with
      | some q => rfl
      | none =>
        rw [show (setRestart c n r).taskDefs
            = c.taskDefs.map (fun p =>
              if p.1 == n then (p.1, { p.2 with restart := r }) else p)
            from rfl] at hq
        rw [hq] at h2
        simp at h2
    | none =>
      rw [hfb] at h2
      simp only [Option.isNone] at h2
      cases hq : (setRestart c n r).taskDefs.find? (fun p => p.2.cmd == "") with
      | some q =>
        rw [show (setRestart c n r).taskDefs
            = c.taskDefs.map (fun p =>
              if p.1 == n then (p.1, { p.2 with restart := r }) else p)
            from rfl] at hq
        rw [hq] at h2
        simp at h2
      | none => rfl

/-- C9 counterexample: a manifest whose task sets `restart = true` is
accepted by Load, yet the executor semantics equal those of the same task
without a restart entry (for a clean exit and for a failure alike), and
triggerRestarts sends it no pulse — the field drives no behaviour, so the
program accepts while silently ignoring it. -/
theorem restart_accepted_ignored_cx :
    loadValidate cfgRestart = .ok cfgRestart
    ∧ runTaskSem dRestart ⟨0, false⟩ = runTaskSem dPlain ⟨0, false⟩
    ∧ runTaskSem dRestart ⟨1, false⟩ = runTaskSem dPlain ⟨1, false⟩
    ∧ triggerRestarts false [(dRestart, 0)] = [(dRestart, 0)] :=
  ⟨rfl, rfl, rfl, rfl⟩

/-- C1: the spec says a task with `useShell = false` has its command
tokenised by whitespace and exec'd directly; runTask instead spawns
`/bin/sh -c cmd` in both branches (its non-shell branch is a placeholder
identical to the shell branch), so for `shell = false`,
`cmd = "echo a b"` the spawned argv is the shell form, not the tokenised
argv the spec prescribes. -/
theorem runTask_shellFalse_spawn :
    buildArgv { cmd := "echo a b", shell := some false } =
      ["/bin/sh", "-c", "echo a b"]
    ∧ whitespaceTokens "echo a b" = ["echo", "a", "b"]
    ∧ buildArgv { cmd := "echo a b", shell := some false } ≠
      specArgv { cmd := "echo a b", shell := some false } :=
  ⟨rfl, rfl, by decide⟩

/-- C3: for a non-zero child exit code, runTask returns a failure exactly
when the cancellation scope had not fired; after cancellation the
non-zero exit is swallowed. -/
theorem waitResult_failure_iff (ec : Nat) (cancelled : Bool)
    (h : ec ≠ 0) :
    (waitResult ec cancelled).isSome = true ↔ cancelled = false := by
  unfold waitResult
  rw [if_neg h]
  cases cancelled <;> simp

/-- Witness for C3 at exit code 2: cancelled swallows the failure. -/
theorem waitResult_failure_iff_witness :
    (waitResult 2 true).isSome = true ↔ true = false :=
  waitResult_failure_iff 2 true (by decide)

/-- C7: task selection — an empty argument list yields the full manifest
order; a non-empty list of defined names is returned exactly; an argument
naming an undefined task yields an error and no run set. -/
theorem getTasksToRun_spec (c : Config) (args : List String) :
    c.getTasksToRun [] = .ok c.tasks
    ∧ (args ≠ [] → (∀ a ∈ args, (c.findTaskDef a).isSome) →
        c.getTasksToRun args = .ok args)
    ∧ ((∃ a ∈ args, (c.findTaskDef a).isNone) →
        ∃ msg, c.getTasksToRun args = .error msg) := by
  refine ⟨rfl, fun h1 h2 => getTasksToRun_ok_of_defined c args h1 h2, ?_⟩
  rintro ⟨a, ha, hna⟩
  have hne2 : args.isEmpty = false := by
    cases args with
    | nil => exact absurd ha (by simp)
    | cons x l => rfl
  have hsome : (args.find? (fun a => (c.findTaskDef a).isNone)).isSome := by
    rw [List.find?_isSome]
    exact ⟨a, ha, hna⟩
  obtain ⟨bad, hbad⟩ := Option.isSome_iff_exists.mp hsome
  simp [Config.getTasksToRun, hne2, hbad]

/-- Witness for C7: the two-task manifest with a duplicate-free valid
selection and an undefined name. -/
theorem getTasksToRun_spec_witness :
    cfgAB.getTasksToRun ["b", "a"] = .ok ["b", "a"]
    ∧ ∃ msg, cfgAB.getTasksToRun ["zzz"] = .error msg :=
  ⟨(getTasksToRun_spec cfgAB ["b", "a"]).2.1 (by decide) (by decide),
   (getTasksToRun_spec cfgAB ["zzz"]).2.2 ⟨"zzz", by decide, by decide⟩⟩

/-- C8: the front-end flag surface — both spellings of config, verbose,
list, help, interactive and watch are accepted, and the config default is
prun.toml. -/
theorem parseFlags_surface :
    parseFlags ["-c", "dev.toml"] = .ok ({ configPath := "dev.toml" }, [])
    ∧ parseFlags ["--config", "dev.toml"] =
        .ok ({ configPath := "dev.toml" }, [])
    ∧ parseFlags ["-v"] = .ok ({ verbose := true }, [])
    ∧ parseFlags ["--verbose"] = .ok ({ verbose := true }, [])
    ∧ parseFlags ["-l"] = .ok ({ list := true }, [])
    ∧ parseFlags ["--list"] = .ok ({ list := true }, [])
    ∧ parseFlags ["-h"] = .ok ({ help := true }, [])
    ∧ parseFlags ["--help"] = .ok ({ help := true }, [])
    ∧ parseFlags ["-i"] = .ok ({ interactive := true }, [])
    ∧ parseFlags ["--interactive"] = .ok ({ interactive := true }, [])
    ∧ parseFlags ["-w"] = .ok ({ watch := true }, [])
    ∧ parseFlags ["--watch"] = .ok ({ watch := true }, [])
    ∧ ({} : Flags).configPath = "prun.toml" :=
  ⟨rfl, rfl, rfl, rfl, rfl, rfl, rfl, rfl, rfl, rfl, rfl, rfl, rfl⟩

/-- C4: the claim has the watch layer register the supervisor working
directory when a watched task sets no workingDirectory; Watcher.Start
passes ".", filepath.Base "." begins with a dot, and the walk issues
SkipDir at the root — so nothing at all is registered for such a task.
With a path set, the walk registers the root and its subdirectories,
pruning node_modules and dot-directories as documented. -/
theorem addWatchRecursive_defaultDir :
    registeredDirs { cmd := "npm run dev" } projTree = []
    ∧ registeredDirs { cmd := "npm run dev", path := "proj" } projTree =
        ["proj", "proj/src", "proj/src/sub"] :=
  ⟨rfl, rfl⟩

/-- Helper: when every consecutive pair of significant events is closer
than the debounce window, only the timer scheduled by the last event
fires. -/
theorem timerFires_allClose (events : List Nat) :
    ∀ l, events.getLast? = some l →
      events.Chain' (fun a b => b < a + debounceMs) →
      timerFires events = [l + debounceMs] := by
  induction events with
  | nil => intro l h; simp at h
  | cons t rest ih =>
    intro l hlast hchain
    cases rest with
    | nil =>
      simp only [List.getLast?_singleton, Option.some.injEq] at hlast
      subst hlast
      rfl
    | cons u rest2 =>
      obtain ⟨h1, h2⟩ := List.chain'_cons.mp hchain
      have hlast2 : (u :: rest2).getLast? = some l := by
        rw [List.getLast?_cons_cons] at hlast
        exact hlast
      have hstep : timerFires (t :: u :: rest2) = timerFires (u :: rest2) := by
        simp [timerFires, h1]
      rw [hstep]
      exact ih l hlast2 h2

/-- C5: a run of significant filesystem events each closer than 500 ms to
the previous one fires the debounce exactly once, 500 ms after the last
event; the single triggerRestarts call leaves every watched mailbox
holding exactly one pulse, whether it was empty (a pulse is delivered) or
already pending (the send coalesces), and a pending pulse is never
re-filled beyond one. -/
theorem debounce_single_pulse (events : List Nat) (l : Nat)
    (h1 : events.getLast? = some l)
    (h2 : events.Chain' (fun a b => b < a + debounceMs)) :
    timerFires events = [l + debounceMs]
    ∧ (∀ (gw : Bool) (boxes : List (TaskDef × Nat)) (p : TaskDef × Nat),
        p ∈ boxes → p.2 ≤ 1 → (gw || p.1.watch) = true →
        (p.1, 1) ∈ triggerRestarts gw boxes)
    ∧ trySend 1 = 1 := by
  refine ⟨timerFires_allClose events l h1 h2, ?_, rfl⟩
  intro gw boxes p hp hslot hw
  have himg := List.mem_map_of_mem
    (fun q : TaskDef × Nat =>
      if gw || q.1.watch then (q.1, trySend q.2) else q) hp
  have hts : trySend p.2 = 1 := by
    unfold trySend
    by_cases h0 : p.2 = 0
    · rw [if_pos h0]
    · rw [if_neg h0]; omega
  rw [triggerRestarts]
  simpa [hw, hts] using himg

/-- Witness for C5: three events 0, 100, 300 ms apart fire once at 800 ms,
and the pulse lands in an empty watched mailbox. -/
theorem debounce_single_pulse_witness :
    timerFires [0, 100, 300] = [800]
    ∧ (({ cmd := "x", watch := true } : TaskDef), 1) ∈
        triggerRestarts false [({ cmd := "x", watch := true }, 0)]
    ∧ trySend 1 = 1 :=
  ⟨(debounce_single_pulse [0, 100, 300] 300 rfl (by simp [List.chain'_cons, debounceMs])).1,
   (debounce_single_pulse [0, 100, 300] 300 rfl (by simp [List.chain'_cons, debounceMs])).2.1
     false [({ cmd := "x", watch := true }, 0)]
     ({ cmd := "x", watch := true }, 0)
     (List.mem_singleton.mpr rfl) (by decide) rfl,
   (debounce_single_pulse [0, 100, 300] 300 rfl (by simp [List.chain'_cons, debounceMs])).2.2⟩

/-- Helper: every line the splitter emits is shorter than the buffer
bound. -/
theorem scanLinesAux_length_lt (s : List Nat) :
    ∀ cur, ∀ l ∈ scanLinesAux cur s, l.length < maxScanTokenSize := by
  induction s with
  | nil =>
    intro cur l hl
    by_cases h1 : cur.isEmpty
    · simp [scanLinesAux, h1] at hl
    · by_cases h2 : maxScanTokenSize ≤ cur.length
      · simp [scanLinesAux, h1, h2] at hl
      · simp [scanLinesAux, h1, h2] at hl
        subst hl
        simp
        omega
  | cons b rest ih =>
    intro cur l hl
    by_cases hb : b = 10
    · subst hb
      by_cases h2 : maxScanTokenSize ≤ cur.length
      · simp [scanLinesAux, h2] at hl
      · simp [scanLinesAux, h2] at hl
        cases hl with
        | inl h => subst h; simp; omega
        | inr h => exact ih [] l h
    · simp only [scanLinesAux, if_neg hb] at hl
      exact ih (b :: cur) l hl

/-- Helper: once a line reaches the buffer bound with no newline, Scan
fails with ErrTooLong and nothing more is emitted. -/
theorem scanLinesAux_overflow (long : List Nat) :
    ∀ cur rest, 10 ∉ long →
      maxScanTokenSize ≤ cur.length + long.length →
      scanLinesAux cur (long ++ 10 :: rest) = [] := by
  induction long with
  | nil =>
    intro cur rest _ hlen
    simp only [List.length_nil, Nat.add_zero] at hlen
    simp [scanLinesAux, hlen]
  | cons b bs ih =>
    intro cur rest hnot hlen
    have hb : ¬ b = 10 := by
      intro h
      exact hnot (by rw [h]; exact List.mem_cons_self _ _)
    show scanLinesAux cur (b :: (bs ++ 10 :: rest)) = []
    simp only [scanLinesAux, if_neg hb]
    have hlen2 : maxScanTokenSize ≤ (b :: cur).length + bs.length := by
      simp only [List.length_cons] at hlen ⊢
      omega
    exact ih (b :: cur) rest
      (fun h => hnot (List.mem_cons_of_mem _ h)) hlen2

/-- Helper: a line below the buffer bound is emitted whole at its
newline, and scanning continues after it. -/
theorem scanLinesAux_emit (l : List Nat) :
    ∀ cur rest, 10 ∉ l →
      cur.length + l.length < maxScanTokenSize →
      scanLinesAux cur (l ++ 10 :: rest)
        = (cur.reverse ++ l) :: scanLinesAux [] rest := by
  induction l with
  | nil =>
    intro cur rest _ hlen
    simp only [List.length_nil, Nat.add_zero] at hlen
    have h2 : ¬ maxScanTokenSize ≤ cur.length := by omega
    simp [scanLinesAux, h2]
  | cons b bs ih =>
    intro cur rest hnot hlen
    have hb : ¬ b = 10 := by
      intro h
      exact hnot (by rw [h]; exact List.mem_cons_self _ _)
    show scanLinesAux cur (b :: (bs ++ 10 :: rest)) = _
    simp only [scanLinesAux, if_neg hb]
    have hlen2 : (b :: cur).length + bs.length < maxScanTokenSize := by
      simp only [List.length_cons] at hlen ⊢
      omega
    rw [ih (b :: cur) rest (fun h => hnot (List.mem_cons_of_mem _ h)) hlen2]
    simp [List.reverse_cons, List.append_assoc]

/-- C6 amended form: the splitter emits only lines strictly below the
64 KiB buffer bound; a line at or above the bound is dropped — together
with the whole remainder of the stream — rather than split; lines below
the bound are emitted whole. -/
theorem scanLines_bound_and_drop :
    (∀ s, ∀ l ∈ scanLines s, l.length < maxScanTokenSize)
    ∧ (∀ long rest, 10 ∉ long → maxScanTokenSize ≤ long.length →
        scanLines (long ++ 10 :: rest) = [])
    ∧ (∀ l rest, 10 ∉ l → l.length < maxScanTokenSize →
        scanLines (l ++ 10 :: rest) = l :: scanLines rest) := by
  refine ⟨fun s l hl => scanLinesAux_length_lt s [] l hl,
    fun long rest h1 h2 =>
      scanLinesAux_overflow long [] rest h1 (by simpa using h2),
    fun l rest h1 h2 => ?_⟩
  have h := scanLinesAux_emit l [] rest h1 (by simpa using h2)
  simpa [scanLines] using h

/-- Helper: the newline byte does not occur in the 64 KiB filler line. -/
theorem ten_not_mem_filler : (10 : Nat) ∉ List.replicate 65536 97 :=
  fun h => absurd (List.eq_of_mem_replicate h) (by decide)

/-- Helper: the filler line is exactly as long as the buffer bound. -/
theorem filler_reaches_bound :
    maxScanTokenSize ≤ (List.replicate 65536 97 : List Nat).length := by
  rw [List.length_replicate]
  exact Nat.le_refl _

/-- Helper: the filler line together with an empty buffer reaches the
buffer bound. -/
theorem filler_reaches_bound_from_empty :
    maxScanTokenSize ≤
      ([] : List Nat).length + (List.replicate 65536 97 : List Nat).length := by
  rw [List.length_replicate, List.length_nil, Nat.zero_add]
  exact Nat.le_refl _

/-- C6 counterexample: a 64 KiB line followed by a newline and a short
line produces no events at all — the over-long line is dropped, not split
at the limit, and the following short line is lost with it. -/
theorem scanLines_longLine_dropped :
    scanLines (List.replicate 65536 97 ++ 10 :: [98, 10]) = [] :=
  scanLinesAux_overflow (List.replicate 65536 97) [] [98, 10]
    ten_not_mem_filler filler_reaches_bound_from_empty

/-- Witness for C6: the drop behaviour at the bound and the emit
behaviour below it, at concrete streams. -/
theorem scanLines_bound_and_drop_witness :
    scanLines (List.replicate 65536 97 ++ 10 :: [99, 10]) = []
    ∧ scanLines ([104, 105] ++ 10 :: [106, 10])
        = [104, 105] :: scanLines [106, 10] :=
  ⟨scanLines_bound_and_drop.2.1 (List.replicate 65536 97) [99, 10]
     ten_not_mem_filler filler_reaches_bound,
   scanLines_bound_and_drop.2.2 [104, 105] [106, 10]
     (by decide) (by decide)⟩

/-- C10: a non-empty argument list of defined names is neither
deduplicated nor reordered — the run set is the argument list verbatim —
and Runner.Run launches one executor goroutine per list element, so a
name occurring N times yields N concurrent instances. -/
theorem dupArgs_runSet_verbatim (c : Config) (args : List String)
    (hne : args ≠ []) (hdef : ∀ a ∈ args, (c.findTaskDef a).isSome) :
    c.getTasksToRun args = .ok args
    ∧ ∀ name,
        ((launchedExecutors args).filter (fun p => p.2 == name)).length =
          args.count name := by
  refine ⟨getTasksToRun_ok_of_defined c args hne hdef, fun name => ?_⟩
  exact enumFrom_filter_snd_count name args 0

/-- Witness for C10: the argument list [a, a] runs task a twice. -/
theorem dupArgs_runSet_verbatim_witness :
    cfgAB.getTasksToRun ["a", "a"] = .ok ["a", "a"]
    ∧ ((launchedExecutors ["a", "a"]).filter (fun p => p.2 == "a")).length =
        (["a", "a"] : List String).count "a" :=
  ⟨(dupArgs_runSet_verbatim cfgAB ["a", "a"] (by decide) (by decide)).1,
   (dupArgs_runSet_verbatim cfgAB ["a", "a"] (by decide) (by decide)).2 "a"⟩

end Prun
